import Mathlib

/-!
Verification of the workout-logging service core: the use-case layer's
validation / partial-update logic (`usecase/workout_usecase.go`), the
repository's filtered listing and aggregation (`infra/workout_repository.go`),
and the in-memory repository used as a test double.

Modelling conventions:
* Go `int` / `int64` / `int32` fields are modelled as `Int` (the claims only
  involve sign tests and small values, never overflow).
* `float64` weights are modelled as `Rat`: the program only compares weights
  against exact decimal thresholds and forms products/sums of exact inputs.
* `time.Time` instants are modelled as an abstract `Int` clock value supplied
  by the caller (`now`), and the stats time window by its cutoff instant.
* Go `nil`-able pointer fields become `Option`.
* The mutable repository becomes explicit state passing; the in-memory map of
  `MockWorkoutRepository` becomes an association list keyed by id.
-/

/-- `domain.WorkoutStatus` (domain/enums.go): Planned / InProgress /
Completed / Skipped, integer-encoded from 0. -/
inductive WorkoutStatus where
  | planned
  | inProgress
  | completed
  | skipped
deriving DecidableEq, Repr

/-- `domain.Difficulty` (domain/enums.go): Beginner / Intermediate /
Advanced / Beast, integer-encoded from 0. -/
inductive Difficulty where
  | beginner
  | intermediate
  | advanced
  | beast
deriving DecidableEq, Repr

/-- `domain.MuscleGroup` (domain/enums.go), integer-encoded from 0 with
`Unspecified = 0`. -/
inductive MuscleGroup where
  | unspecified
  | chest
  | back
  | legs
  | shoulders
  | arms
  | abs
  | core
  | glutes
  | cardio
  | fullBody
deriving DecidableEq, Repr

/-- `domain.ExerciseType` (domain/enums.go), integer-encoded from 0 with
`ExerciseUnspecified = 0`. -/
inductive ExerciseType where
  | unspecified
  | benchPress
  | squat
  | deadlift
  | dumbbellShoulder
  | pullUp
  | sideRaise
  | oneHandRow
  | highPull
deriving DecidableEq, Repr

/-- Integer wire/database encoding of `WorkoutStatus` (iota order). -/
def WorkoutStatus.toInt : WorkoutStatus → Int
  | .planned => 0
  | .inProgress => 1
  | .completed => 2
  | .skipped => 3

/-- Integer wire/database encoding of `Difficulty` (iota order). -/
def Difficulty.toInt : Difficulty → Int
  | .beginner => 0
  | .intermediate => 1
  | .advanced => 2
  | .beast => 3

/-- Integer wire/database encoding of `MuscleGroup` (iota order). -/
def MuscleGroup.toInt : MuscleGroup → Int
  | .unspecified => 0
  | .chest => 1
  | .back => 2
  | .legs => 3
  | .shoulders => 4
  | .arms => 5
  | .abs => 6
  | .core => 7
  | .glutes => 8
  | .cardio => 9
  | .fullBody => 10

/-- `domain.Workout` (the domain entity): id, exercise type, description,
status, difficulty, muscle group, sets, reps, weight, notes, created/updated
timestamps and the nilable completion timestamp. -/
structure Workout where
  id : Int
  exerciseType : ExerciseType
  description : String
  status : WorkoutStatus
  difficulty : Difficulty
  muscleGroup : MuscleGroup
  sets : Int
  reps : Int
  weight : Rat
  notes : String
  createdAt : Int
  updatedAt : Int
  completedAt : Option Int
deriving DecidableEq, Repr

/-- `usecase.CreateWorkoutRequest`: plain (non-pointer) fields; zero values
mean "not supplied". -/
structure CreateWorkoutRequest where
  exerciseType : ExerciseType
  description : String
  difficulty : Difficulty
  muscleGroup : MuscleGroup
  sets : Int
  reps : Int
  weight : Rat
  notes : String
deriving DecidableEq, Repr

/-- `usecase.UpdateWorkoutRequest` (pointer-based variant): `none` means
"leave unchanged". -/
structure UpdateWorkoutRequest where
  id : Int
  exerciseType : ExerciseType
  description : Option String
  difficulty : Option Difficulty
  muscleGroup : Option MuscleGroup
  status : Option WorkoutStatus
  sets : Option Int
  reps : Option Int
  weight : Option Rat
  notes : Option String
deriving DecidableEq, Repr

/-- The individual validation violations produced by the `errValidator`
methods in usecase/workout_usecase.go (each carries the offending value,
as the Go error message does). -/
inductive VErr where
  | negativeSets (sets : Int)
  | negativeReps (reps : Int)
  | negativeWeight (weight : Rat)
  | invalidID (id : Int)
  | unspecifiedExercise
deriving DecidableEq, Repr

/-- `errValidator.validateSets`: records a violation iff `sets < 0`. -/
def checkSets (sets : Int) : Option VErr :=
  if sets < 0 then some (.negativeSets sets) else none

/-- `errValidator.validateReps`: records a violation iff `reps < 0`. -/
def checkReps (reps : Int) : Option VErr :=
  if reps < 0 then some (.negativeReps reps) else none

/-- `errValidator.validateWeight`: records a violation iff `weight < 0`. -/
def checkWeight (weight : Rat) : Option VErr :=
  if weight < 0 then some (.negativeWeight weight) else none

/-- `errValidator.validateID`: records a violation iff `id <= 0`. -/
def checkID (id : Int) : Option VErr :=
  if id ≤ 0 then some (.invalidID id) else none

/-- `errValidator.validateExerciseType`: records a violation iff the
exercise type is the unspecified sentinel. -/
def checkExerciseType (et : ExerciseType) : Option VErr :=
  if et = .unspecified then some .unspecifiedExercise else none

/-- `validateWorkoutDataWithErrValidator`: runs the sets, reps and weight
checks in order, collecting every violation (the `errValidator` appends each
failure to its slice and never stops early).  The empty list plays the role
of the validator's `nil` result. -/
def validateWorkoutDataWithErrValidator (w : Workout) : List VErr :=
  (checkSets w.sets).toList ++ (checkReps w.reps).toList ++
    (checkWeight w.weight).toList

/-- `validateUpdateInput` (the variant UpdateWorkout actually calls):
sequential `if ... return err` checks — it returns the FIRST violation found,
in the order id, exercise type, sets, reps, weight, and `none` when all pass.
Absent (`none`) numeric fields are not checked. -/
def validateUpdateInput (id : Int) (et : ExerciseType)
    (sets reps : Option Int) (weight : Option Rat) : Option VErr :=
  if id ≤ 0 then some (.invalidID id)
  else if et = .unspecified then some .unspecifiedExercise
  else match sets with
  | some s =>
    if s < 0 then some (.negativeSets s)
    else match reps with
    | some r =>
      if r < 0 then some (.negativeReps r)
      else match weight with
      | some wt => if wt < 0 then some (.negativeWeight wt) else none
      | none => none
    | none =>
      match weight with
      | some wt => if wt < 0 then some (.negativeWeight wt) else none
      | none => none
  | none =>
    match reps with
    | some r =>
      if r < 0 then some (.negativeReps r)
      else match weight with
      | some wt => if wt < 0 then some (.negativeWeight wt) else none
      | none => none
    | none =>
      match weight with
      | some wt => if wt < 0 then some (.negativeWeight wt) else none
      | none => none

/-- `validateUpdateInputWithErrValidator` (defined in the source but NOT
called by UpdateWorkout): runs every check through the `errValidator`,
collecting all violations in order id, exercise type, sets, reps, weight. -/
def validateUpdateInputWithErrValidator (id : Int) (et : ExerciseType)
    (sets reps : Option Int) (weight : Option Rat) : List VErr :=
  (checkID id).toList ++ (checkExerciseType et).toList ++
    (sets.elim [] fun s => (checkSets s).toList) ++
    (reps.elim [] fun r => (checkReps r).toList) ++
    (weight.elim [] fun wt => (checkWeight wt).toList)

/-- Error outcomes of the use-case operations, abstracting the Go error
values: the bare `fmt.Errorf("exercise type must be specified")` returned
before any I/O, the `WorkoutError` wrapping a validation failure, the
`WorkoutError` wrapping a repository "not found", and the `WorkoutError`
wrapping any other repository fault. -/
inductive UCErr where
  | invalidArgument
  | validation (errs : List VErr)
  | notFound
  | repoFault (msg : String)
deriving DecidableEq, Repr

/-- `handleStatusChange` (usecase/workout_usecase.go, both variants): when
the new status is Completed and the completion timestamp is still unset,
stamp the current time; otherwise leave the record unchanged (the Skipped
branch only logs). -/
def handleStatusChange (w : Workout) (newStatus : WorkoutStatus) (now : Int) :
    Workout :=
  if newStatus = .completed ∧ w.completedAt = none then
    { w with completedAt := some now }
  else w

/-- The field-overlay section of the pointer-based `UpdateWorkout`
(lines 370–399): exercise type is always overwritten from the request, each
optional field is applied only when non-nil, a present status additionally
runs `handleStatusChange`, and the update timestamp is always refreshed. -/
def applyUpdate (req : UpdateWorkoutRequest) (w0 : Workout) (now : Int) :
    Workout :=
  let w := { w0 with exerciseType := req.exerciseType }
  let w := match req.description with
    | some d => { w with description := d }
    | none => w
  let w := match req.status with
    | some s => handleStatusChange { w with status := s } s now
    | none => w
  let w := match req.difficulty with
    | some d => { w with difficulty := d }
    | none => w
  let w := match req.muscleGroup with
    | some m => { w with muscleGroup := m }
    | none => w
  let w := match req.sets with
    | some s => { w with sets := s }
    | none => w
  let w := match req.reps with
    | some r => { w with reps := r }
    | none => w
  let w := match req.weight with
    | some wt => { w with weight := wt }
    | none => w
  let w := match req.notes with
    | some n => { w with notes := n }
    | none => w
  { w with updatedAt := now }

/-- The defaults-then-overlay section of `CreateWorkout` (lines 84–115):
defaults status=Planned, difficulty=Beginner, sets=3, reps=10, weight=0,
overridden only by "meaningfully set" request fields (non-empty strings,
non-zero enums, strictly positive sets/reps/weight). -/
def buildWorkout (req : CreateWorkoutRequest) (now : Int) : Workout :=
  { id := 0
    exerciseType := req.exerciseType
    description := if req.description ≠ "" then req.description else ""
    status := .planned
    difficulty := if req.difficulty ≠ .beginner then req.difficulty
      else .beginner
    muscleGroup := if req.muscleGroup ≠ .unspecified then req.muscleGroup
      else .unspecified
    sets := if req.sets > 0 then req.sets else 3
    reps := if req.reps > 0 then req.reps else 10
    weight := if req.weight > 0 then req.weight else 0
    notes := if req.notes ≠ "" then req.notes else ""
    createdAt := now
    updatedAt := now
    completedAt := none }

/-- `CreateWorkout` (usecase/workout_usecase.go lines 61–146), generic over
the repository's create operation (`wm.repo.CreateWorkout`): reject the
unspecified exercise type before any I/O, build the record with defaults and
overlay, run the aggregating validator, then persist.  The repository create
receives the built record and returns the stored record (the Go code mutates
the record in place to set its id). -/
def createWorkoutG {σ : Type} (create : Workout → σ → Except String Workout × σ)
    (req : CreateWorkoutRequest) (now : Int) (s : σ) :
    Except UCErr Workout × σ :=
  if req.exerciseType = .unspecified then (.error .invalidArgument, s)
  else
    let w := buildWorkout req now
    match validateWorkoutDataWithErrValidator w with
    | [] =>
      match create w s with
      | (.ok stored, s') => (.ok stored, s')
      | (.error e, s') => (.error (.repoFault e), s')
    | errs => (.error (.validation errs), s)

/-- `MockWorkoutRepository`: the in-memory test double — a map from id to
record (modelled as an association list, newest insertion last) and the
next-identifier counter.  `NewMockWorkoutRepository` starts the counter
at 1 with an empty map. -/
structure MockRepo where
  workouts : List (Int × Workout)
  nextID : Int
deriving DecidableEq, Repr

/-- `NewMockWorkoutRepository()`. -/
def MockRepo.new : MockRepo := { workouts := [], nextID := 1 }

/-- Map lookup `m.workouts[id]`. -/
def MockRepo.lookup (m : MockRepo) (id : Int) : Option Workout :=
  (m.workouts.find? fun p => p.1 = id).map Prod.snd

/-- Go map assignment `m.workouts[k] = w`: the binding for `k` becomes `w`
and every other binding is unchanged.  (A Go map carries no observable
order — its iteration order is deliberately randomised — so any association
list realising that key-to-value function is a faithful model; this one
drops the old binding and appends the new.) -/
def mapStore (l : List (Int × Workout)) (k : Int) (w : Workout) :
    List (Int × Workout) :=
  (l.filter fun p => ¬ p.1 = k) ++ [(k, w)]

/-- `MockWorkoutRepository.CreateWorkout`: assign `nextID` as the record's
id, store it under that key, increment the counter, return the stored
record (the Go code mutates the caller's record in place). -/
def MockRepo.create (w : Workout) (m : MockRepo) :
    Except String Workout × MockRepo :=
  let stored := { w with id := m.nextID }
  (.ok stored,
    { workouts := mapStore m.workouts m.nextID stored
      nextID := m.nextID + 1 })

/-- `MockWorkoutRepository.GetWorkout` / `GetWorkoutByID`: map lookup,
"workout not found" error when absent. -/
def MockRepo.get (m : MockRepo) (id : Int) : Except String Workout :=
  match m.lookup id with
  | some w => .ok w
  | none => .error "workout not found"

/-- `MockWorkoutRepository.UpdateWorkout`: error when the id is absent,
otherwise re-store the record under its id. -/
def MockRepo.update (w : Workout) (m : MockRepo) :
    Except String Unit × MockRepo :=
  match m.lookup w.id with
  | some _ => (.ok (), { m with workouts := mapStore m.workouts w.id w })
  | none => (.error "workout not found", m)

/-- `MockWorkoutRepository.DeleteWorkout`: error when the id is absent,
otherwise remove the binding. -/
def MockRepo.delete (id : Int) (m : MockRepo) :
    Except String Unit × MockRepo :=
  match m.lookup id with
  | some _ =>
    (.ok (), { m with workouts := m.workouts.filter fun p => ¬ p.1 = id })
  | none => (.error "workout not found", m)

/-- An absent filter passes every value; a present filter demands equality
with the integer encoding (the mock's `continue` conditions). -/
def passesFilter (v : Int) : Option Int → Bool
  | some f => v == f
  | none => true

/-- `MockWorkoutRepository.ListWorkouts`: iterate the map, skipping any
record failing a present equality filter (each of the three filters is
applied independently; filters compare against the integer encodings). -/
def MockRepo.list (m : MockRepo)
    (sf df mf : Option Int) : List Workout :=
  (m.workouts.filter fun p =>
    passesFilter p.2.status.toInt sf &&
    passesFilter p.2.difficulty.toInt df &&
    passesFilter p.2.muscleGroup.toInt mf).map Prod.snd

/-- `CreateWorkout` instantiated with the in-memory repository. -/
def createWorkoutM (req : CreateWorkoutRequest) (now : Int) (m : MockRepo) :
    Except UCErr Workout × MockRepo :=
  createWorkoutG MockRepo.create req now m

/-- `UpdateWorkout` (usecase/workout_usecase.go lines 344–415), against the
in-memory repository: validate the input (fail-fast `validateUpdateInput`),
fetch the existing record, overlay the present fields (`applyUpdate`,
including the completion-stamp rule), and persist via the repository's
update. -/
def updateWorkoutM (req : UpdateWorkoutRequest) (now : Int) (m : MockRepo) :
    Except UCErr Unit × MockRepo :=
  match validateUpdateInput req.id req.exerciseType req.sets req.reps
      req.weight with
  | some e => (.error (.validation [e]), m)
  | none =>
    match m.get req.id with
    | .error _ => (.error .notFound, m)
    | .ok w0 =>
      let w := applyUpdate req w0 now
      match MockRepo.update w m with
      | (.ok _, m') => (.ok (), m')
      | (.error e, m') => (.error (.repoFault e), m')

/-- `WorkoutManager.isValidWorkout`: the application-level validity check —
the exercise type must be specified and the id strictly positive (the Go
`nil`-pointer guard has no counterpart for a value). -/
def isValidWorkout (w : Workout) : Bool :=
  if w.exerciseType = ExerciseType.unspecified then false
  else if w.id ≤ 0 then false
  else true

/-- `WorkoutManager.ListWorkouts` (lines 522–546): over the records the
repository returned (or its failure), keep exactly those passing
`isValidWorkout`; a repository failure is wrapped, while an empty remainder
is still a success. -/
def listWorkoutsUC (repoResult : Except String (List Workout)) :
    Except UCErr (List Workout) :=
  match repoResult with
  | .error e => .error (.repoFault e)
  | .ok ws => .ok (ws.filter isValidWorkout)

/-- `WorkoutManager.GetHighIntensityWorkouts` (lines 563–603): over the
records returned by the unfiltered repository listing, keep those whose
difficulty is Advanced or Beast and whose weight is at least 50.0 (the
generics-based counters only feed a log line). -/
def getHighIntensityWorkouts (allWorkouts : List Workout) : List Workout :=
  allWorkouts.filter fun w => decide (
    (w.difficulty = Difficulty.advanced ∨ w.difficulty = Difficulty.beast) ∧
      (50 : Rat) ≤ w.weight)

/-- Insert into a list kept in descending `createdAt` order. -/
def insertByCreatedAtDesc (w : Workout) : List Workout → List Workout
  | [] => [w]
  | x :: xs =>
    if x.createdAt ≤ w.createdAt then w :: x :: xs
    else x :: insertByCreatedAtDesc w xs

/-- `ORDER BY created_at DESC`: most recent creation first (tie order is
unspecified by SQL; any descending arrangement refines it). -/
def sortByCreatedAtDesc : List Workout → List Workout
  | [] => []
  | x :: xs => insertByCreatedAtDesc x (sortByCreatedAtDesc xs)

/-- The WHERE clause built by `GORMRepository.ListWorkouts`
(infra/workout_repository.go lines 73–90), branch for branch: when both the
status and difficulty filters are present the combined two-column predicate
is used (any muscle-group filter is never added); else when both status and
muscle-group filters are present their combined predicate is used; else each
individually present filter contributes an equality condition. -/
def gormListPredicate (sf df mf : Option Int) (w : Workout) : Bool :=
  match sf, df with
  | some s, some d => w.status.toInt == s && w.difficulty.toInt == d
  | _, _ =>
    match sf, mf with
    | some s, some g => w.status.toInt == s && w.muscleGroup.toInt == g
    | _, _ =>
      passesFilter w.status.toInt sf &&
        passesFilter w.difficulty.toInt df &&
        passesFilter w.muscleGroup.toInt mf

/-- `GORMRepository.ListWorkouts` as a query over the table rows: the rows
satisfying the constructed WHERE clause, ordered by creation time, most
recent first. -/
def gormListWorkouts (sf df mf : Option Int) (rows : List Workout) :
    List Workout :=
  sortByCreatedAtDesc (rows.filter (gormListPredicate sf df mf))

/-- Modelled from the spec for comparison with `gormListPredicate`: "the
conjunction of the present equality filters" — every present filter must
match, independently. -/
def matchesAllPresentFilters (sf df mf : Option Int) (w : Workout) : Bool :=
  passesFilter w.status.toInt sf &&
    passesFilter w.difficulty.toInt df &&
    passesFilter w.muscleGroup.toInt mf

/-- The aggregate returned by `GORMRepository.GetWorkoutStats`: the four
scalar entries and the muscle-group-to-count mapping (as the list of
(group, count) pairs the GROUP BY produces). -/
structure WorkoutStats where
  totalWorkouts : Nat
  completedWorkouts : Nat
  skippedWorkouts : Nat
  totalWeightLifted : Rat
  muscleGroupStats : List (MuscleGroup × Nat)
deriving DecidableEq, Repr

/-- The window condition `created_at >= timeFilter` (inclusive lower
edge). -/
def inWindow (cutoff : Int) (w : Workout) : Bool := cutoff ≤ w.createdAt

/-- `GORMRepository.GetWorkoutStats` (infra/workout_repository.go lines
110–170) over the table rows, parametrised by the window cutoff instant
(which the Go switch derives from the period string: start of today /
now - 7 days / now - 1 month / default now - 30 days).  Five independent
queries: COUNT over the window; COUNT of Completed in the window; COUNT of
Skipped in the window; SUM(weight * sets * reps) of Completed in the window
(0 when no rows, as the NULL sum scans to the zero value); and
COUNT(*) GROUP BY muscle_group over the window regardless of status. -/
def getWorkoutStats (cutoff : Int) (rows : List Workout) : WorkoutStats :=
  let windowRows := rows.filter (inWindow cutoff)
  let completedRows := rows.filter fun w =>
    w.status == WorkoutStatus.completed && inWindow cutoff w
  { totalWorkouts := windowRows.length
    completedWorkouts := completedRows.length
    skippedWorkouts := (rows.filter fun w =>
      w.status == WorkoutStatus.skipped && inWindow cutoff w).length
    totalWeightLifted :=
      (completedRows.map fun w => w.weight * (w.sets : Rat) * (w.reps : Rat)).sum
    muscleGroupStats := (windowRows.map Workout.muscleGroup).dedup.map fun g =>
      (g, (windowRows.filter fun w => w.muscleGroup == g).length) }

/-- The repository operations exercised by the identifier-assignment claim:
creates interleaved with updates and deletes against the in-memory
repository. -/
inductive MockOp where
  | create (w : Workout)
  | update (w : Workout)
  | delete (id : Int)
deriving DecidableEq, Repr

/-- Run one operation, also reporting the identifier assigned when the
operation was a create. -/
def MockRepo.step (m : MockRepo) : MockOp → MockRepo × Option Int
  | .create w => ((MockRepo.create w m).2, some m.nextID)
  | .update w => ((MockRepo.update w m).2, none)
  | .delete id => ((MockRepo.delete id m).2, none)

/-- Run a sequence of operations from a given state, collecting the
identifiers assigned by the creates, in order. -/
def MockRepo.run (m : MockRepo) : List MockOp → MockRepo × List Int
  | [] => (m, [])
  | op :: ops =>
    let (m', assigned) := m.step op
    let (mEnd, ids) := MockRepo.run m' ops
    (mEnd, assigned.toList ++ ids)

/-! Shared lemmas about the association-list map. -/

theorem find?_append_of_none {α : Type} (p : α → Bool) (l₁ l₂ : List α)
    (h : l₁.find? p = none) : (l₁ ++ l₂).find? p = l₂.find? p := by
  induction l₁ with
  | nil => rfl
  | cons a l ih =>
    by_cases hp : p a
    · simp [List.find?_cons_of_pos _ hp] at h
    · rw [List.find?_cons_of_neg _ hp] at h
      rw [List.cons_append, List.find?_cons_of_neg _ hp]
      exact ih h

theorem find?_filter_ne_none (l : List (Int × Workout)) (k : Int) :
    ((l.filter fun p => ¬ p.1 = k).find? fun p => p.1 = k) = none := by
  induction l with
  | nil => rfl
  | cons a l _ih =>
    by_cases ha : a.1 = k
    · simp only [List.filter, ha, decide_not]
      simp
    · simp only [List.filter, ha, decide_not]
      simp only [decide_eq_false ha, Bool.not_false, List.find?]
      simp [ha]

theorem lookup_mapStore_self (l : List (Int × Workout)) (k : Int)
    (w : Workout) (n : Int) :
    MockRepo.lookup ⟨mapStore l k w, n⟩ k = some w := by
  unfold MockRepo.lookup mapStore
  rw [find?_append_of_none _ _ _ (find?_filter_ne_none l k)]
  simp [List.find?]

/-- C8 needs a concrete request with the unspecified sentinel. -/
def reqUnspec : CreateWorkoutRequest :=
  { exerciseType := .unspecified, description := "", difficulty := .beginner,
    muscleGroup := .unspecified, sets := 0, reps := 0, weight := 0,
    notes := "" }

/-- C8: a create request carrying the unspecified exercise-type sentinel is
rejected with the pre-I/O `InvalidArgument` error, and the repository state
is returned untouched for EVERY repository implementation — the repository
create operation is never invoked. -/
theorem create_unspecified_fails_before_io {σ : Type}
    (create : Workout → σ → Except String Workout × σ)
    (req : CreateWorkoutRequest) (now : Int) (s : σ)
    (h : req.exerciseType = ExerciseType.unspecified) :
    createWorkoutG create req now s = (.error .invalidArgument, s) := by
  simp [createWorkoutG, h]

/-- Witness for C8: the concrete unspecified-exercise request against the
fresh in-memory repository. -/
theorem create_unspecified_fails_before_io_witness :
    reqUnspec.exerciseType = ExerciseType.unspecified ∧
      createWorkoutG MockRepo.create reqUnspec 0 MockRepo.new =
        (.error .invalidArgument, MockRepo.new) :=
  ⟨rfl, create_unspecified_fails_before_io MockRepo.create reqUnspec 0
    MockRepo.new rfl⟩

/-- The overlaid record built by `CreateWorkout` always passes the
aggregating validator: the overlay admits only strictly positive sets, reps
and weight, falling back to the non-negative defaults otherwise. -/
theorem validate_buildWorkout (req : CreateWorkoutRequest) (now : Int) :
    validateWorkoutDataWithErrValidator (buildWorkout req now) = [] := by
  unfold validateWorkoutDataWithErrValidator buildWorkout
  unfold checkSets checkReps checkWeight
  simp only []
  split_ifs <;> simp_all <;> first | omega | linarith

/-- C1 counterexample input: a specified exercise with sets = -1,
reps = -2, weight = -5 all supplied negative. -/
def reqNegative : CreateWorkoutRequest :=
  { exerciseType := .benchPress, description := "", difficulty := .beginner,
    muscleGroup := .unspecified, sets := -1, reps := -2, weight := -5,
    notes := "" }

/-- The record `CreateWorkout` actually persists for `reqNegative`: every
negative field fell back to its default. -/
def wNegStored : Workout :=
  { id := 1, exerciseType := .benchPress, description := "",
    status := .planned, difficulty := .beginner, muscleGroup := .unspecified,
    sets := 3, reps := 10, weight := 0, notes := "", createdAt := 0,
    updatedAt := 0, completedAt := none }

/-- C1 counterexample: with sets, reps and weight all supplied negative,
`CreateWorkout` does NOT fail with a `ValidationError` — it succeeds and a
record IS persisted (with the defaults), refuting the claim at this
input. -/
theorem create_negative_counterexample :
    createWorkoutM reqNegative 0 MockRepo.new =
      (.ok wNegStored, { workouts := [(1, wNegStored)], nextID := 2 }) := by
  rfl

/-- C1 (amended): a create request with any of sets, reps or weight supplied
negative is not rejected — the negative fields fail the strictly-positive
presence test of the overlay, so their defaults (sets=3, reps=10, weight=0)
are retained, the create succeeds, and the record is persisted under the
next identifier.  No `ValidationError` is produced because the aggregating
validator only ever sees the post-overlay record. -/
theorem create_negative_ignored_defaults (req : CreateWorkoutRequest)
    (now : Int) (m : MockRepo)
    (hex : ¬ req.exerciseType = ExerciseType.unspecified)
    (_hneg : req.sets < 0 ∨ req.reps < 0 ∨ req.weight < 0) :
    ∃ stored : Workout,
      createWorkoutM req now m =
        (.ok stored,
          { workouts := mapStore m.workouts m.nextID stored,
            nextID := m.nextID + 1 }) ∧
      (createWorkoutM req now m).2.lookup m.nextID = some stored ∧
      (req.sets < 0 → stored.sets = 3) ∧
      (req.reps < 0 → stored.reps = 10) ∧
      (req.weight < 0 → stored.weight = 0) := by
  have hv := validate_buildWorkout req now
  have hstep : createWorkoutM req now m =
      (.ok { buildWorkout req now with id := m.nextID },
        { workouts := mapStore m.workouts m.nextID
            { buildWorkout req now with id := m.nextID },
          nextID := m.nextID + 1 }) := by
    unfold createWorkoutM createWorkoutG
    simp only [hex, if_false, ite_false]
    rw [hv]
    simp [MockRepo.create]
  refine ⟨{ buildWorkout req now with id := m.nextID }, hstep, ?_, ?_, ?_, ?_⟩
  · rw [hstep]
    exact lookup_mapStore_self m.workouts m.nextID _ (m.nextID + 1)
  · intro h
    simp [buildWorkout]
    omega
  · intro h
    simp [buildWorkout]
    omega
  · intro h
    simp [buildWorkout]
    intro h'
    linarith

/-- Witness for C1 (amended): the concrete all-negative request. -/
theorem create_negative_ignored_defaults_witness :
    (¬ reqNegative.exerciseType = ExerciseType.unspecified ∧
      (reqNegative.sets < 0 ∨ reqNegative.reps < 0 ∨
        reqNegative.weight < 0)) ∧
    ∃ stored : Workout,
      createWorkoutM reqNegative 0 MockRepo.new =
        (.ok stored,
          { workouts := mapStore MockRepo.new.workouts MockRepo.new.nextID
              stored,
            nextID := MockRepo.new.nextID + 1 }) ∧
      (createWorkoutM reqNegative 0 MockRepo.new).2.lookup
          MockRepo.new.nextID = some stored ∧
      (reqNegative.sets < 0 → stored.sets = 3) ∧
      (reqNegative.reps < 0 → stored.reps = 10) ∧
      (reqNegative.weight < 0 → stored.weight = 0) :=
  ⟨⟨by decide, by decide⟩,
    create_negative_ignored_defaults reqNegative 0 MockRepo.new (by decide)
      (by decide)⟩

/-- The fail-fast `validateUpdateInput` returns exactly the head of the list
the aggregating `validateUpdateInputWithErrValidator` would collect: the
first violation in the order id, exercise kind, sets, reps, weight. -/
theorem validateUpdateInput_eq_head (id : Int) (et : ExerciseType)
    (sets reps : Option Int) (weight : Option Rat) :
    validateUpdateInput id et sets reps weight =
      (validateUpdateInputWithErrValidator id et sets reps weight).head? := by
  unfold validateUpdateInput validateUpdateInputWithErrValidator
  unfold checkID checkExerciseType checkSets checkReps checkWeight
  cases sets <;> cases reps <;> cases weight <;> split_ifs <;> simp_all <;>
    split_ifs <;> simp_all

/-- C2 counterexample input: both a non-positive identifier and a negative
sets value. -/
def reqUpdBad : UpdateWorkoutRequest :=
  { id := 0, exerciseType := .benchPress, description := none,
    difficulty := none, muscleGroup := none, status := none,
    sets := some (-1), reps := none, weight := none, notes := none }

/-- C2 counterexample: an update input with two violations (id = 0 and
sets = -1).  The validation UpdateWorkout runs reports only the first
(`invalid workout ID`), while the aggregating validator defined (but not
called) in the source would have collected both — so UpdateWorkout's
validation does NOT collect all violations in one pass. -/
theorem update_validation_counterexample :
    validateUpdateInput reqUpdBad.id reqUpdBad.exerciseType reqUpdBad.sets
        reqUpdBad.reps reqUpdBad.weight = some (VErr.invalidID 0) ∧
    validateUpdateInputWithErrValidator reqUpdBad.id reqUpdBad.exerciseType
        reqUpdBad.sets reqUpdBad.reps reqUpdBad.weight =
      [VErr.invalidID 0, VErr.negativeSets (-1)] ∧
    updateWorkoutM reqUpdBad 0 MockRepo.new =
      (.error (.validation [VErr.invalidID 0]), MockRepo.new) := by
  refine ⟨rfl, rfl, rfl⟩

/-- C2 (amended): UpdateWorkout's input validation checks identifier,
exercise kind and the present numeric fields in a fixed order but stops at
the first violation: whenever the aggregated violation list is non-empty
with first element `e`, the validation returns exactly `e` and UpdateWorkout
fails reporting only `e`, leaving the repository untouched. -/
theorem update_validation_reports_first_only (req : UpdateWorkoutRequest)
    (now : Int) (m : MockRepo) (e : VErr)
    (h : (validateUpdateInputWithErrValidator req.id req.exerciseType
      req.sets req.reps req.weight).head? = some e) :
    validateUpdateInput req.id req.exerciseType req.sets req.reps
        req.weight = some e ∧
      updateWorkoutM req now m = (.error (.validation [e]), m) := by
  have h1 : validateUpdateInput req.id req.exerciseType req.sets req.reps
      req.weight = some e := by
    rw [validateUpdateInput_eq_head]
    exact h
  refine ⟨h1, ?_⟩
  unfold updateWorkoutM
  rw [h1]

/-- Witness for C2 (amended): the two-violation input. -/
theorem update_validation_reports_first_only_witness :
    (validateUpdateInputWithErrValidator reqUpdBad.id reqUpdBad.exerciseType
        reqUpdBad.sets reqUpdBad.reps reqUpdBad.weight).head? =
      some (VErr.invalidID 0) ∧
    (validateUpdateInput reqUpdBad.id reqUpdBad.exerciseType reqUpdBad.sets
        reqUpdBad.reps reqUpdBad.weight = some (VErr.invalidID 0) ∧
      updateWorkoutM reqUpdBad 3 MockRepo.new =
        (.error (.validation [VErr.invalidID 0]), MockRepo.new)) :=
  ⟨rfl, update_validation_reports_first_only reqUpdBad 3 MockRepo.new
    (VErr.invalidID 0) rfl⟩

/-- `applyUpdate` in closed form: only explicitly present fields overwrite,
the identifier and creation time are untouched, the update time is
refreshed, and the completion timestamp is stamped exactly when the request
sets status Completed while it was unset. -/
theorem applyUpdate_eq (req : UpdateWorkoutRequest) (w0 : Workout)
    (now : Int) :
    applyUpdate req w0 now =
      { id := w0.id
        exerciseType := req.exerciseType
        description := req.description.getD w0.description
        status := req.status.getD w0.status
        difficulty := req.difficulty.getD w0.difficulty
        muscleGroup := req.muscleGroup.getD w0.muscleGroup
        sets := req.sets.getD w0.sets
        reps := req.reps.getD w0.reps
        weight := req.weight.getD w0.weight
        notes := req.notes.getD w0.notes
        createdAt := w0.createdAt
        updatedAt := now
        completedAt :=
          if req.status = some WorkoutStatus.completed ∧
              w0.completedAt = none
          then some now else w0.completedAt } := by
  unfold applyUpdate handleStatusChange
  cases req.description <;> cases req.status <;> cases req.difficulty <;>
    cases req.muscleGroup <;> cases req.sets <;> cases req.reps <;>
    cases req.weight <;> cases req.notes <;>
    simp_all <;> split_ifs <;> simp_all

/-- A prior record used by several witnesses (not yet completed). -/
def w0Sample : Workout :=
  { id := 1, exerciseType := .squat, description := "leg day",
    status := .planned, difficulty := .intermediate, muscleGroup := .legs,
    sets := 5, reps := 8, weight := 100, notes := "warm up first",
    createdAt := 10, updatedAt := 10, completedAt := none }

/-- An update request supplying only the weight field. -/
def reqOnlyWeight : UpdateWorkoutRequest :=
  { id := 1, exerciseType := .squat, description := none,
    difficulty := none, muscleGroup := none, status := none, sets := none,
    reps := none, weight := some 120, notes := none }

/-- A one-record repository state holding `w0Sample`. -/
def mOne : MockRepo := { workouts := [(1, w0Sample)], nextID := 2 }

/-- C3: the pointer-based update is partial — when the input passes
validation and the target record exists (stored under its own identifier),
the update succeeds, and every optional field supplied as nil keeps its
prior stored value: description, difficulty, muscle group, status (and with
it the completion timestamp), sets, reps, weight, and notes.  In particular
an update supplying only the weight leaves sets, reps, description and notes
equal to their prior values. -/
theorem update_partial_frame (req : UpdateWorkoutRequest) (now : Int)
    (m : MockRepo) (w0 : Workout)
    (hval : validateUpdateInput req.id req.exerciseType req.sets req.reps
      req.weight = none)
    (hget : m.lookup req.id = some w0)
    (hid : w0.id = req.id) :
    ∃ r : Workout, ∃ m' : MockRepo,
      updateWorkoutM req now m = (.ok (), m') ∧
      m'.lookup req.id = some r ∧
      (req.description = none → r.description = w0.description) ∧
      (req.difficulty = none → r.difficulty = w0.difficulty) ∧
      (req.muscleGroup = none → r.muscleGroup = w0.muscleGroup) ∧
      (req.status = none →
        r.status = w0.status ∧ r.completedAt = w0.completedAt) ∧
      (req.sets = none → r.sets = w0.sets) ∧
      (req.reps = none → r.reps = w0.reps) ∧
      (req.weight = none → r.weight = w0.weight) ∧
      (req.notes = none → r.notes = w0.notes) := by
  have hidw : (applyUpdate req w0 now).id = req.id := by
    rw [applyUpdate_eq]
    exact hid
  have hstep : updateWorkoutM req now m =
      (.ok (),
        { m with workouts :=
            mapStore m.workouts req.id (applyUpdate req w0 now) }) := by
    unfold updateWorkoutM MockRepo.get MockRepo.update
    rw [hval, hget]
    simp only [hidw, hget]
  refine ⟨applyUpdate req w0 now,
    { m with workouts := mapStore m.workouts req.id (applyUpdate req w0 now) },
    hstep, lookup_mapStore_self m.workouts req.id _ m.nextID,
    ?_, ?_, ?_, ?_, ?_, ?_, ?_, ?_⟩ <;>
    rw [applyUpdate_eq] <;> intro h <;> simp [h]

/-- Witness for C3: updating only the weight of the stored `w0Sample`. -/
theorem update_partial_frame_witness :
    (validateUpdateInput reqOnlyWeight.id reqOnlyWeight.exerciseType
        reqOnlyWeight.sets reqOnlyWeight.reps reqOnlyWeight.weight = none ∧
      mOne.lookup reqOnlyWeight.id = some w0Sample ∧
      w0Sample.id = reqOnlyWeight.id) ∧
    (∃ r : Workout, ∃ m' : MockRepo,
      updateWorkoutM reqOnlyWeight 20 mOne = (.ok (), m') ∧
      m'.lookup reqOnlyWeight.id = some r ∧
      (reqOnlyWeight.description = none → r.description = w0Sample.description) ∧
      (reqOnlyWeight.difficulty = none → r.difficulty = w0Sample.difficulty) ∧
      (reqOnlyWeight.muscleGroup = none → r.muscleGroup = w0Sample.muscleGroup) ∧
      (reqOnlyWeight.status = none →
        r.status = w0Sample.status ∧ r.completedAt = w0Sample.completedAt) ∧
      (reqOnlyWeight.sets = none → r.sets = w0Sample.sets) ∧
      (reqOnlyWeight.reps = none → r.reps = w0Sample.reps) ∧
      (reqOnlyWeight.weight = none → r.weight = w0Sample.weight) ∧
      (reqOnlyWeight.notes = none → r.notes = w0Sample.notes)) :=
  ⟨⟨rfl, rfl, rfl⟩,
    update_partial_frame reqOnlyWeight 20 mOne w0Sample rfl rfl rfl⟩

/-- C4: completion stamping is one-shot — when the prior record has no
completion timestamp and the update sets status Completed, the current time
is stamped; and whenever a completion timestamp is already present, every
update (including one that re-sets status Completed) leaves it exactly as it
was: it is never cleared or overwritten. -/
theorem completion_stamp_one_shot (req : UpdateWorkoutRequest)
    (w0 : Workout) (now : Int) :
    (w0.completedAt = none → req.status = some WorkoutStatus.completed →
      (applyUpdate req w0 now).completedAt = some now) ∧
    (∀ t : Int, w0.completedAt = some t →
      (applyUpdate req w0 now).completedAt = some t) := by
  rw [applyUpdate_eq]
  constructor
  · intro h hs
    simp [h, hs]
  · intro t ht
    simp [ht]

/-- An update request that (re-)sets status Completed. -/
def reqComplete : UpdateWorkoutRequest :=
  { reqOnlyWeight with weight := none, status := some .completed }

/-- `w0Sample` after it was already completed at time 3. -/
def w0Done : Workout := { w0Sample with completedAt := some 3 }

/-- Witness for C4: stamping on the first Completed transition of
`w0Sample`, and preservation on a repeated Completed transition of
`w0Done`. -/
theorem completion_stamp_one_shot_witness :
    (w0Sample.completedAt = none ∧
      reqComplete.status = some WorkoutStatus.completed ∧
      (applyUpdate reqComplete w0Sample 7).completedAt = some 7) ∧
    (w0Done.completedAt = some 3 ∧
      (applyUpdate reqComplete w0Done 9).completedAt = some 3) :=
  ⟨⟨rfl, rfl, (completion_stamp_one_shot reqComplete w0Sample 7).1 rfl rfl⟩,
    ⟨rfl, (completion_stamp_one_shot reqComplete w0Done 9).2 3 rfl⟩⟩

/-- `isValidWorkout` holds exactly for a specified exercise kind and a
strictly positive identifier. -/
theorem isValidWorkout_iff (w : Workout) :
    isValidWorkout w = true ↔
      (¬ w.exerciseType = ExerciseType.unspecified ∧ 0 < w.id) := by
  unfold isValidWorkout
  split_ifs <;> simp_all

/-- C7: over any record set the repository listing returned, the use-case
listing applies its second, independent validity filter: it succeeds (even
when nothing remains) and returns exactly the records whose exercise kind is
specified and whose identifier is strictly positive. -/
theorem list_second_validity_filter (repoRows : List Workout) :
    ∃ vs : List Workout,
      listWorkoutsUC (.ok repoRows) = .ok vs ∧
      ∀ w : Workout, w ∈ vs ↔
        w ∈ repoRows ∧
          ¬ w.exerciseType = ExerciseType.unspecified ∧ 0 < w.id := by
  refine ⟨repoRows.filter isValidWorkout, rfl, ?_⟩
  intro w
  rw [List.mem_filter, isValidWorkout_iff]

/-- A Beast-difficulty record with weight 80 (passes the high-intensity
filter). -/
def wBeast80 : Workout :=
  { id := 1, exerciseType := .deadlift, description := "", status := .planned,
    difficulty := .beast, muscleGroup := .back, sets := 3, reps := 5,
    weight := 80, notes := "", createdAt := 1, updatedAt := 1,
    completedAt := none }

/-- A Beginner-difficulty record with weight 80 (fails the high-intensity
filter on difficulty alone). -/
def wBeginner80 : Workout :=
  { id := 2, exerciseType := .squat, description := "", status := .planned,
    difficulty := .beginner, muscleGroup := .legs, sets := 3, reps := 5,
    weight := 80, notes := "", createdAt := 2, updatedAt := 2,
    completedAt := none }

/-- C9: `GetHighIntensityWorkouts` keeps exactly the records whose
difficulty is Advanced or Beast and whose weight is at least 50; in
particular, over the Beast/80 and Beginner/80 pair only the Beast record is
returned, and over the Beginner record alone the result is empty. -/
theorem high_intensity_filter (rows : List Workout) :
    (∀ w : Workout, w ∈ getHighIntensityWorkouts rows ↔
      w ∈ rows ∧
        (w.difficulty = Difficulty.advanced ∨
          w.difficulty = Difficulty.beast) ∧ (50 : Rat) ≤ w.weight) ∧
    getHighIntensityWorkouts [wBeast80, wBeginner80] = [wBeast80] ∧
    getHighIntensityWorkouts [wBeginner80] = [] := by
  refine ⟨?_, rfl, rfl⟩
  intro w
  rw [getHighIntensityWorkouts, List.mem_filter]
  simp [and_assoc]

/-! Sortedness and membership lemmas for `sortByCreatedAtDesc`. -/

theorem mem_insertByCreatedAtDesc {x w : Workout} {l : List Workout} :
    x ∈ insertByCreatedAtDesc w l ↔ x = w ∨ x ∈ l := by
  induction l with
  | nil => simp [insertByCreatedAtDesc]
  | cons a l ih =>
    unfold insertByCreatedAtDesc
    split_ifs with hc
    · simp
    · rw [List.mem_cons, ih, List.mem_cons]
      tauto

theorem pairwise_insertByCreatedAtDesc (w : Workout) (l : List Workout)
    (h : l.Pairwise fun a b => b.createdAt ≤ a.createdAt) :
    (insertByCreatedAtDesc w l).Pairwise
      fun a b => b.createdAt ≤ a.createdAt := by
  induction l with
  | nil => simp [insertByCreatedAtDesc]
  | cons a l ih =>
    rcases List.pairwise_cons.mp h with ⟨ha, hl⟩
    unfold insertByCreatedAtDesc
    split_ifs with hc
    · refine List.pairwise_cons.mpr ⟨?_, h⟩
      intro b hb
      rcases List.mem_cons.mp hb with heq | hb
      · subst heq
        exact hc
      · exact le_trans (ha b hb) hc
    · refine List.pairwise_cons.mpr ⟨?_, ih hl⟩
      intro b hb
      rcases mem_insertByCreatedAtDesc.mp hb with heq | hb
      · subst heq
        omega
      · exact ha b hb

theorem pairwise_sortByCreatedAtDesc (l : List Workout) :
    (sortByCreatedAtDesc l).Pairwise
      fun a b => b.createdAt ≤ a.createdAt := by
  induction l with
  | nil => simp [sortByCreatedAtDesc]
  | cons a l ih => exact pairwise_insertByCreatedAtDesc a _ ih

theorem mem_sortByCreatedAtDesc {x : Workout} {l : List Workout} :
    x ∈ sortByCreatedAtDesc l ↔ x ∈ l := by
  induction l with
  | nil => simp [sortByCreatedAtDesc]
  | cons a l ih =>
    unfold sortByCreatedAtDesc
    rw [mem_insertByCreatedAtDesc, ih, List.mem_cons]

/-- The WHERE clause the GORM repository builds agrees with the conjunction
of the present filters except when all three are present, where only the
combined status + difficulty predicate survives. -/
theorem gormListPredicate_eq (sf df mf : Option Int) (w : Workout) :
    gormListPredicate sf df mf w =
      match sf, df, mf with
      | some s, some d, some _ =>
        (w.status.toInt == s) && (w.difficulty.toInt == d)
      | _, _, _ => matchesAllPresentFilters sf df mf w := by
  cases sf <;> cases df <;> cases mf <;>
    simp [gormListPredicate, matchesAllPresentFilters, passesFilter]

/-- C5 counterexample row: Planned / Beginner / Chest. -/
def wChest : Workout :=
  { id := 1, exerciseType := .benchPress, description := "",
    status := .planned, difficulty := .beginner, muscleGroup := .chest,
    sets := 3, reps := 10, weight := 0, notes := "", createdAt := 0,
    updatedAt := 0, completedAt := none }

/-- C5 counterexample: with all three filters present (status = 0 Planned,
difficulty = 0 Beginner, muscle group = 2 Back), the row fails the
conjunction of the present filters (its muscle group is Chest = 1), yet the
repository listing still returns it — the muscle-group filter is dropped
when status and difficulty are both present. -/
theorem gorm_list_counterexample :
    gormListWorkouts (some 0) (some 0) (some 2) [wChest] = [wChest] ∧
      matchesAllPresentFilters (some 0) (some 0) (some 2) wChest = false :=
  ⟨rfl, rfl⟩

/-- C5 (amended): the repository listing returns exactly the records
matching the constructed filter — the conjunction of the present equality
filters in every case except when all three filters are present, where the
combined status + difficulty predicate takes precedence and the
muscle-group filter is ignored — ordered by creation time most recent
first; with no filters present every record is returned. -/
theorem gorm_list_spec (sf df mf : Option Int) (rows : List Workout) :
    (gormListWorkouts sf df mf rows).Pairwise
      (fun a b => b.createdAt ≤ a.createdAt) ∧
    (∀ w : Workout, w ∈ gormListWorkouts sf df mf rows ↔
      w ∈ rows ∧
        (if sf.isSome ∧ df.isSome ∧ mf.isSome
          then passesFilter w.status.toInt sf = true ∧
            passesFilter w.difficulty.toInt df = true
          else matchesAllPresentFilters sf df mf w = true)) ∧
    (∀ w : Workout, w ∈ gormListWorkouts none none none rows ↔ w ∈ rows) := by
  refine ⟨pairwise_sortByCreatedAtDesc _, ?_, ?_⟩
  · intro w
    rw [gormListWorkouts, mem_sortByCreatedAtDesc, List.mem_filter,
      gormListPredicate_eq]
    cases sf <;> cases df <;> cases mf <;>
      simp [matchesAllPresentFilters, passesFilter]
  · intro w
    rw [gormListWorkouts, mem_sortByCreatedAtDesc, List.mem_filter]
    simp [gormListPredicate, passesFilter]

/-- Bridge between the repository's Boolean row conditions and their
propositional reading: completed-in-window. -/
theorem completed_cond_eq (cutoff : Int) (w : Workout) :
    (w.status == WorkoutStatus.completed && inWindow cutoff w) =
      decide (w.status = WorkoutStatus.completed ∧ cutoff ≤ w.createdAt) := by
  by_cases h1 : w.status = WorkoutStatus.completed <;>
    by_cases h2 : cutoff ≤ w.createdAt <;> simp [inWindow, h1, h2]

/-- Bridge: skipped-in-window. -/
theorem skipped_cond_eq (cutoff : Int) (w : Workout) :
    (w.status == WorkoutStatus.skipped && inWindow cutoff w) =
      decide (w.status = WorkoutStatus.skipped ∧ cutoff ≤ w.createdAt) := by
  by_cases h1 : w.status = WorkoutStatus.skipped <;>
    by_cases h2 : cutoff ≤ w.createdAt <;> simp [inWindow, h1, h2]

/-- The per-muscle-group count over the window equals the count, over the
whole table, of rows in that group created at or after the cutoff. -/
theorem muscle_count_eq (cutoff : Int) (rows : List Workout)
    (g : MuscleGroup) :
    ((rows.filter (inWindow cutoff)).filter
        fun w => w.muscleGroup == g).length =
      rows.countP fun w =>
        decide (w.muscleGroup = g ∧ cutoff ≤ w.createdAt) := by
  rw [List.filter_filter, List.countP_eq_length_filter]
  congr 1
  apply List.filter_congr
  intro a _
  by_cases h1 : a.muscleGroup = g <;> by_cases h2 : cutoff ≤ a.createdAt <;>
    simp [inWindow, h1, h2]

/-- C6: over the time window [cutoff, ∞) — inclusive at the created-at-or-
after edge — the stats aggregate returns the total record count, the
Completed and Skipped counts, the weight-volume sum Σ weight × sets × reps
over Completed records only, and a muscle-group mapping counting all
records in the window regardless of status; on an empty store everything is
zero and the mapping is empty. -/
theorem stats_spec (cutoff : Int) (rows : List Workout) :
    (getWorkoutStats cutoff rows).totalWorkouts =
      rows.countP (fun w => decide (cutoff ≤ w.createdAt)) ∧
    (getWorkoutStats cutoff rows).completedWorkouts =
      rows.countP (fun w =>
        decide (w.status = WorkoutStatus.completed ∧
          cutoff ≤ w.createdAt)) ∧
    (getWorkoutStats cutoff rows).skippedWorkouts =
      rows.countP (fun w =>
        decide (w.status = WorkoutStatus.skipped ∧ cutoff ≤ w.createdAt)) ∧
    (getWorkoutStats cutoff rows).totalWeightLifted =
      ((rows.filter fun w =>
          decide (w.status = WorkoutStatus.completed ∧
            cutoff ≤ w.createdAt)).map
        fun w => w.weight * (w.sets : Rat) * (w.reps : Rat)).sum ∧
    (∀ (g : MuscleGroup) (n : Nat),
      (g, n) ∈ (getWorkoutStats cutoff rows).muscleGroupStats ↔
        0 < n ∧ n = rows.countP fun w =>
          decide (w.muscleGroup = g ∧ cutoff ≤ w.createdAt)) ∧
    getWorkoutStats cutoff [] =
      { totalWorkouts := 0, completedWorkouts := 0, skippedWorkouts := 0,
        totalWeightLifted := 0, muscleGroupStats := [] } := by
  refine ⟨?_, ?_, ?_, ?_, ?_, rfl⟩
  · rw [getWorkoutStats]
    simp only []
    rw [List.countP_eq_length_filter]
    congr 1
  · rw [getWorkoutStats]
    simp only []
    rw [List.countP_eq_length_filter]
    congr 1
    exact List.filter_congr fun a _ => completed_cond_eq cutoff a
  · rw [getWorkoutStats]
    simp only []
    rw [List.countP_eq_length_filter]
    congr 1
    exact List.filter_congr fun a _ => skipped_cond_eq cutoff a
  · rw [getWorkoutStats]
    simp only []
    congr 1
    congr 1
    exact List.filter_congr fun a _ => completed_cond_eq cutoff a
  · intro g n
    rw [getWorkoutStats]
    simp only []
    constructor
    · intro hmem
      rcases List.mem_map.mp hmem with ⟨g', hg', heq⟩
      have hg'' : g' = g := congrArg Prod.fst heq
      subst hg''
      have hn : n = ((rows.filter (inWindow cutoff)).filter
          fun w => w.muscleGroup == g').length :=
        (congrArg Prod.snd heq).symm
      constructor
      · rcases List.mem_map.mp (List.mem_dedup.mp hg') with ⟨w, hw, hmg⟩
        have hwf : w ∈ (rows.filter (inWindow cutoff)).filter
            fun w => w.muscleGroup == g' :=
          List.mem_filter.mpr ⟨hw, by simp [hmg]⟩
        have := List.length_pos.mpr (List.ne_nil_of_mem hwf)
        omega
      · rw [hn, muscle_count_eq]
    · rintro ⟨hn, hcount⟩
      have hpos : 0 < rows.countP fun w =>
          decide (w.muscleGroup = g ∧ cutoff ≤ w.createdAt) := by
        omega
      rcases List.countP_pos_iff.mp hpos with ⟨w, hw, hpw⟩
      rcases of_decide_eq_true hpw with ⟨hmg, hwin⟩
      have hwW : w ∈ rows.filter (inWindow cutoff) :=
        List.mem_filter.mpr ⟨hw, by simp [inWindow, hwin]⟩
      have hgmem : g ∈ ((rows.filter (inWindow cutoff)).map
          Workout.muscleGroup).dedup :=
        List.mem_dedup.mpr (List.mem_map.mpr ⟨w, hwW, hmg⟩)
      refine List.mem_map.mpr ⟨g, hgmem, ?_⟩
      rw [muscle_count_eq, ← hcount]

/-- The `k` consecutive identifiers starting at `a`. -/
def idsFrom (a : Int) : Nat → List Int
  | 0 => []
  | k + 1 => a :: idsFrom (a + 1) k

/-- The number of create operations in a batch. -/
def countCreates : List MockOp → Nat
  | [] => 0
  | .create _ :: ops => countCreates ops + 1
  | .update _ :: ops => countCreates ops
  | .delete _ :: ops => countCreates ops

/-- State invariant of the in-memory repository: the counter is at least 1
and every stored binding has a positive key below the counter, with the
record stored under its own identifier. -/
def MockRepo.inv (m : MockRepo) : Prop :=
  1 ≤ m.nextID ∧
    ∀ p ∈ m.workouts, 0 < p.1 ∧ p.1 < m.nextID ∧ p.2.id = p.1

theorem mem_mapStore {p : Int × Workout} {l : List (Int × Workout)}
    {k : Int} {w : Workout} (h : p ∈ mapStore l k w) :
    p ∈ l ∨ p = (k, w) := by
  unfold mapStore at h
  rcases List.mem_append.mp h with h | h
  · exact Or.inl (List.mem_of_mem_filter h)
  · simp only [List.mem_singleton] at h
    exact Or.inr h

theorem lookup_mem {m : MockRepo} {k : Int} {v : Workout}
    (h : m.lookup k = some v) : ∃ p, p ∈ m.workouts ∧ p.1 = k := by
  unfold MockRepo.lookup at h
  cases hf : m.workouts.find? fun p => p.1 = k with
  | none => rw [hf] at h; cases h
  | some p =>
    refine ⟨p, List.mem_of_find?_eq_some hf, ?_⟩
    have := List.find?_some hf
    simpa using this

theorem create_state (w : Workout) (m : MockRepo) :
    (MockRepo.create w m).2 =
      { workouts := mapStore m.workouts m.nextID { w with id := m.nextID },
        nextID := m.nextID + 1 } := rfl

theorem create_inv {m : MockRepo} (w : Workout) (h : m.inv) :
    ((MockRepo.create w m).2).inv := by
  rcases h with ⟨h1, h2⟩
  rw [create_state]
  refine ⟨?_, ?_⟩
  · show (1 : Int) ≤ m.nextID + 1
    omega
  · intro p hp
    have hp' : p ∈ mapStore m.workouts m.nextID { w with id := m.nextID } :=
      hp
    rcases mem_mapStore hp' with hmem | heq
    · rcases h2 p hmem with ⟨ha, hb, hc⟩
      refine ⟨ha, ?_, hc⟩
      show p.1 < m.nextID + 1
      omega
    · subst heq
      refine ⟨?_, ?_, rfl⟩
      · show (0 : Int) < m.nextID
        omega
      · show m.nextID < m.nextID + 1
        omega

theorem update_inv {m : MockRepo} (w : Workout) (h : m.inv) :
    ((MockRepo.update w m).2).inv ∧
      ((MockRepo.update w m).2).nextID = m.nextID := by
  rcases h with ⟨h1, h2⟩
  unfold MockRepo.update
  cases hl : m.lookup w.id with
  | none => exact ⟨⟨h1, h2⟩, rfl⟩
  | some v =>
    refine ⟨⟨h1, ?_⟩, rfl⟩
    intro p hp
    rcases mem_mapStore hp with hp | heq
    · exact h2 p hp
    · subst heq
      rcases lookup_mem hl with ⟨q, hq, hqk⟩
      rcases h2 q hq with ⟨ha, hb, _⟩
      rw [hqk] at ha hb
      exact ⟨ha, hb, rfl⟩

theorem delete_inv {m : MockRepo} (id : Int) (h : m.inv) :
    ((MockRepo.delete id m).2).inv ∧
      ((MockRepo.delete id m).2).nextID = m.nextID := by
  rcases h with ⟨h1, h2⟩
  unfold MockRepo.delete
  cases hl : m.lookup id with
  | none => exact ⟨⟨h1, h2⟩, rfl⟩
  | some v =>
    refine ⟨⟨h1, ?_⟩, rfl⟩
    intro p hp
    exact h2 p (List.mem_of_mem_filter hp)

theorem update_nextID (w : Workout) (m : MockRepo) :
    ((MockRepo.update w m).2).nextID = m.nextID := by
  unfold MockRepo.update
  cases m.lookup w.id <;> rfl

theorem delete_nextID (id : Int) (m : MockRepo) :
    ((MockRepo.delete id m).2).nextID = m.nextID := by
  unfold MockRepo.delete
  cases m.lookup id <;> rfl

theorem mem_idsFrom {b a : Int} {k : Nat} (h : b ∈ idsFrom a k) : a ≤ b := by
  induction k generalizing a with
  | zero => simp [idsFrom] at h
  | succ k ih =>
    rcases List.mem_cons.mp h with heq | h
    · omega
    · have := ih h
      omega

theorem idsFrom_pairwise (a : Int) (k : Nat) :
    (idsFrom a k).Pairwise (· < ·) := by
  induction k generalizing a with
  | zero => exact List.Pairwise.nil
  | succ k ih =>
    refine List.pairwise_cons.mpr ⟨?_, ih (a + 1)⟩
    intro b hb
    have := mem_idsFrom hb
    omega

/-- One induction over the whole operation batch: the assigned identifiers
are the consecutive block starting at the current counter, the counter
advances by the number of creates, and the state invariant is preserved. -/
theorem run_spec (ops : List MockOp) : ∀ m : MockRepo,
    (MockRepo.run m ops).2 = idsFrom m.nextID (countCreates ops) ∧
    ((MockRepo.run m ops).1).nextID = m.nextID + countCreates ops ∧
    (m.inv → ((MockRepo.run m ops).1).inv) := by
  induction ops with
  | nil => exact fun m => ⟨rfl, by simp [MockRepo.run, countCreates], id⟩
  | cons op ops ih =>
    intro m
    cases op with
    | create w =>
      rcases ih (MockRepo.create w m).2 with ⟨hids, hnext, hinv⟩
      refine ⟨?_, ?_, ?_⟩
      · show (some m.nextID).toList ++ (MockRepo.run (MockRepo.create w m).2
            ops).2 = idsFrom m.nextID (countCreates (.create w :: ops))
        rw [hids, create_state]
        rfl
      · show (MockRepo.run (MockRepo.create w m).2 ops).1.nextID =
          m.nextID + countCreates (.create w :: ops)
        rw [hnext, create_state]
        show m.nextID + 1 + countCreates ops = _
        have : countCreates (.create w :: ops) = countCreates ops + 1 := rfl
        omega
      · intro hm
        exact hinv (create_inv w hm)
    | update w =>
      rcases ih (MockRepo.update w m).2 with ⟨hids, hnext, hinv⟩
      refine ⟨?_, ?_, ?_⟩
      · show (MockRepo.run (MockRepo.update w m).2 ops).2 =
          idsFrom m.nextID (countCreates ops)
        rw [hids, update_nextID]
      · show (MockRepo.run (MockRepo.update w m).2 ops).1.nextID =
          m.nextID + countCreates ops
        rw [hnext, update_nextID]
      · intro hm
        exact hinv (update_inv w hm).1
    | delete id =>
      rcases ih (MockRepo.delete id m).2 with ⟨hids, hnext, hinv⟩
      refine ⟨?_, ?_, ?_⟩
      · show (MockRepo.run (MockRepo.delete id m).2 ops).2 =
          idsFrom m.nextID (countCreates ops)
        rw [hids, delete_nextID]
      · show (MockRepo.run (MockRepo.delete id m).2 ops).1.nextID =
          m.nextID + countCreates ops
        rw [hnext, delete_nextID]
      · intro hm
        exact hinv (delete_inv id hm).1

/-- C10: running any batch of creates, updates and deletes from the fresh
in-memory repository, the identifiers assigned by the creates are exactly
1, 2, 3, … in order (the counter starts at 1 and is incremented after each
create), so they are strictly positive, strictly increasing, and never
repeated — even when records are deleted in between — and every record
still persisted carries a strictly positive identifier. -/
theorem mock_identifier_assignment (ops : List MockOp) :
    (MockRepo.run MockRepo.new ops).2 = idsFrom 1 (countCreates ops) ∧
    ((MockRepo.run MockRepo.new ops).1).nextID = 1 + countCreates ops ∧
    (MockRepo.run MockRepo.new ops).2.Pairwise (· < ·) ∧
    (∀ i ∈ (MockRepo.run MockRepo.new ops).2, 0 < i) ∧
    (MockRepo.run MockRepo.new ops).2.Nodup ∧
    (∀ p ∈ ((MockRepo.run MockRepo.new ops).1).workouts, 0 < p.2.id) := by
  rcases run_spec ops MockRepo.new with ⟨hids, hnext, hinv⟩
  have hnew : MockRepo.new.inv := by
    refine ⟨?_, ?_⟩
    · show (1 : Int) ≤ 1
      omega
    · intro p hp
      simp [MockRepo.new] at hp
  refine ⟨hids, hnext, ?_, ?_, ?_, ?_⟩
  · rw [hids]
    exact idsFrom_pairwise _ _
  · intro i hi
    rw [hids] at hi
    have h1 : (1 : Int) ≤ i := mem_idsFrom hi
    omega
  · rw [hids]
    exact (idsFrom_pairwise _ _).imp fun h => Int.ne_of_lt h
  · intro p hp
    rcases hinv hnew with ⟨_, h2⟩
    rcases h2 p hp with ⟨ha, _, hc⟩
    rw [hc]
    exact ha

/-- Witness for C5: the no-filter case over one concrete row. -/
theorem gorm_list_spec_witness :
    wChest ∈ gormListWorkouts none none none [wChest] ↔ wChest ∈ [wChest] :=
  (gorm_list_spec none none none [wChest]).2.2 wChest

/-- Witness for C6: the empty store yields all-zero stats and an empty
mapping. -/
theorem stats_spec_witness :
    getWorkoutStats 0 [] =
      { totalWorkouts := 0, completedWorkouts := 0, skippedWorkouts := 0,
        totalWeightLifted := 0, muscleGroupStats := [] } :=
  (stats_spec 0 []).2.2.2.2.2

/-- Witness for C7: the validity filter over a concrete singleton. -/
theorem list_second_validity_filter_witness :
    ∃ vs : List Workout,
      listWorkoutsUC (.ok [w0Sample]) = .ok vs ∧
      ∀ w : Workout, w ∈ vs ↔
        w ∈ [w0Sample] ∧
          ¬ w.exerciseType = ExerciseType.unspecified ∧ 0 < w.id :=
  list_second_validity_filter [w0Sample]

/-- Witness for C9: the Beast/80 record is kept while the Beginner/80 one
is dropped. -/
theorem high_intensity_filter_witness :
    wBeast80 ∈ getHighIntensityWorkouts [wBeast80, wBeginner80] ↔
      wBeast80 ∈ [wBeast80, wBeginner80] ∧
        (wBeast80.difficulty = Difficulty.advanced ∨
          wBeast80.difficulty = Difficulty.beast) ∧
          (50 : Rat) ≤ wBeast80.weight :=
  (high_intensity_filter [wBeast80, wBeginner80]).1 wBeast80

/-- Witness for C10: a create, a delete of the created record, then another
create — the identifiers assigned are [1, 2]. -/
theorem mock_identifier_assignment_witness :
    (MockRepo.run MockRepo.new
      [MockOp.create wChest, MockOp.delete 1, MockOp.create wBeast80]).2 =
      idsFrom 1 (countCreates
        [MockOp.create wChest, MockOp.delete 1, MockOp.create wBeast80]) :=
  (mock_identifier_assignment
    [MockOp.create wChest, MockOp.delete 1, MockOp.create wBeast80]).1












